import Mathlib

/-!
Verification of the Sehati café point-of-sale transaction core.

The development shallowly embeds the server's transaction handlers
(`createTransaction`, `getTransactions`, `getDailySalesReport`, …) and the
request-boundary validation schema.  Monetary values are modelled as exact
rationals (`Rat`), matching the fixed-precision `numeric(10,2)` columns of the
relational store; timestamps are modelled as natural numbers of milliseconds;
SQL `serial` columns are modelled by explicit next-id counters on the store
state.  Each database table is a list of rows in insertion order.
-/

namespace SehatiCafe

/-- Payment methods, from the `payment_method` enum of the schema. -/
inductive PaymentMethod where
  | CASH
  | CARD
  | DIGITAL_WALLET
  | BANK_TRANSFER
deriving DecidableEq, Repr

/-- User roles, from the `user_role` enum of the schema. -/
inductive Role where
  | ADMIN
  | KASIR
deriving DecidableEq, Repr

/-- A row of the `users` table. -/
structure UserRow where
  id : Nat
  username : String
  password : String
  role : Role
  full_name : String
  is_active : Bool
  created_at : Nat
  updated_at : Option Nat
deriving DecidableEq, Repr

/-- A row of the `categories` table. -/
structure CategoryRow where
  id : Nat
  name : String
  description : Option String
  is_active : Bool
  created_at : Nat
  updated_at : Option Nat
deriving DecidableEq, Repr

/-- A row of the `menu_items` table. -/
structure MenuItemRow where
  id : Nat
  name : String
  description : Option String
  price : Rat
  category_id : Nat
  is_available : Bool
  image_url : Option String
  created_at : Nat
  updated_at : Option Nat
deriving DecidableEq, Repr

/-- A row of the `transactions` table. -/
structure TransactionRow where
  id : Nat
  transaction_date : Nat
  customer_name : Option String
  customer_phone : Option String
  subtotal : Rat
  tax_amount : Rat
  discount_amount : Rat
  total_amount : Rat
  payment_method : PaymentMethod
  payment_received : Rat
  change_amount : Rat
  notes : Option String
  cashier_id : Nat
  created_at : Nat
deriving DecidableEq, Repr

/-- A row of the `transaction_items` table. -/
structure TransactionItemRow where
  id : Nat
  transaction_id : Nat
  menu_item_id : Nat
  quantity : Int
  unit_price : Rat
  total_price : Rat
  notes : Option String
deriving DecidableEq, Repr

/-- The relational store: the five tables in insertion order together with the
next value of each `serial` id column. -/
structure DB where
  users : List UserRow
  categories : List CategoryRow
  menuItems : List MenuItemRow
  transactions : List TransactionRow
  transactionItems : List TransactionItemRow
  nextUserId : Nat
  nextCategoryId : Nat
  nextMenuItemId : Nat
  nextTransactionId : Nat
  nextTransactionItemId : Nat
deriving DecidableEq, Repr

/-- The empty store. -/
def emptyDB : DB :=
  { users := [], categories := [], menuItems := [], transactions := []
    transactionItems := [], nextUserId := 1, nextCategoryId := 1
    nextMenuItemId := 1, nextTransactionId := 1, nextTransactionItemId := 1 }

/-- One line item of a `createTransaction` request, from
`transactionItemInputSchema` (note: the input carries no `total_price`
field at all — the schema strips any client-supplied total). -/
structure TransactionItemInput where
  menu_item_id : Nat
  quantity : Int
  unit_price : Rat
  notes : Option String
deriving DecidableEq, Repr

/-- A `createTransaction` request body, from `createTransactionInputSchema`. -/
structure CreateTransactionInput where
  customer_name : Option String
  customer_phone : Option String
  items : List TransactionItemInput
  subtotal : Rat
  tax_amount : Rat
  discount_amount : Rat
  total_amount : Rat
  payment_method : PaymentMethod
  payment_received : Rat
  notes : Option String
  cashier_id : Nat
deriving DecidableEq, Repr

/-- The request-boundary validation of `createTransactionInputSchema`:
`items` nonempty, each quantity and unit price positive, subtotal, total and
payment received positive, tax and discount nonnegative.  (`quantity` being an
integer is enforced by its type.) -/
def ValidCreateTransactionInput (inp : CreateTransactionInput) : Prop :=
  1 ≤ inp.items.length
  ∧ (∀ it ∈ inp.items, 0 < it.quantity ∧ 0 < it.unit_price)
  ∧ 0 < inp.subtotal
  ∧ 0 ≤ inp.tax_amount
  ∧ 0 ≤ inp.discount_amount
  ∧ 0 < inp.total_amount
  ∧ 0 < inp.payment_received

instance (inp : CreateTransactionInput) : Decidable (ValidCreateTransactionInput inp) := by
  unfold ValidCreateTransactionInput
  infer_instance

/-- The item rows inserted by `createTransaction`: one row per input line item,
in order, with serial ids starting at `startId`, all owned by transaction
`txId`, with `total_price` recomputed server-side as `quantity * unit_price`. -/
def mkItemRows (txId : Nat) (startId : Nat) : List TransactionItemInput → List TransactionItemRow
  | [] => []
  | it :: rest =>
      { id := startId
        transaction_id := txId
        menu_item_id := it.menu_item_id
        quantity := it.quantity
        unit_price := it.unit_price
        total_price := (it.quantity : Rat) * it.unit_price
        notes := it.notes } :: mkItemRows txId (startId + 1) rest

/-- The engine `createTransaction` handler (success path of the atomic write):
computes `change_amount = payment_received - total_amount` server-side, stores
the caller-supplied header amounts verbatim, inserts the header row and one row
per line item with server-recomputed `total_price`, and returns the persisted
header.  `now` is the server clock supplied by the storage layer for the
`transaction_date` and `created_at` defaults. -/
def createTransaction (db : DB) (input : CreateTransactionInput) (now : Nat) :
    DB × TransactionRow :=
  let changeAmount : Rat := input.payment_received - input.total_amount
  let txRow : TransactionRow :=
    { id := db.nextTransactionId
      transaction_date := now
      customer_name := input.customer_name
      customer_phone := input.customer_phone
      subtotal := input.subtotal
      tax_amount := input.tax_amount
      discount_amount := input.discount_amount
      total_amount := input.total_amount
      payment_method := input.payment_method
      payment_received := input.payment_received
      change_amount := changeAmount
      notes := input.notes
      cashier_id := input.cashier_id
      created_at := now }
  let newItems := mkItemRows db.nextTransactionId db.nextTransactionItemId input.items
  ({ db with
      transactions := db.transactions ++ [txRow]
      transactionItems := db.transactionItems ++ newItems
      nextTransactionId := db.nextTransactionId + 1
      nextTransactionItemId := db.nextTransactionItemId + input.items.length },
   txRow)

/-- Errors surfaced by the `createTransaction` endpoint: boundary validation
failure, or failure of the atomic persistence unit. -/
inductive ApiError where
  | validation
  | persistence
deriving DecidableEq, Repr

/-- The `createTransaction` remote procedure: the input schema is checked at
the request boundary before the handler runs; the handler wraps all its writes
in one storage-level transaction, so a persistence failure (modelled by
`commitOk = false`) leaves the store untouched. -/
def apiCreateTransaction (db : DB) (input : CreateTransactionInput) (now : Nat)
    (commitOk : Bool) : DB × Except ApiError TransactionRow :=
  if ValidCreateTransactionInput input then
    if commitOk then
      let r := createTransaction db input now
      (r.1, Except.ok r.2)
    else (db, Except.error ApiError.persistence)
  else (db, Except.error ApiError.validation)

theorem mkItemRows_length (txId s : Nat) (l : List TransactionItemInput) :
    (mkItemRows txId s l).length = l.length := by
  induction l generalizing s with
  | nil => rfl
  | cons it rest ih => simp [mkItemRows, ih]

theorem mkItemRows_get? (txId s : Nat) (l : List TransactionItemInput) (i : Nat)
    (h : i < l.length) :
    (mkItemRows txId s l).get? i = some
      { id := s + i
        transaction_id := txId
        menu_item_id := (l.get ⟨i, h⟩).menu_item_id
        quantity := (l.get ⟨i, h⟩).quantity
        unit_price := (l.get ⟨i, h⟩).unit_price
        total_price := ((l.get ⟨i, h⟩).quantity : Rat) * (l.get ⟨i, h⟩).unit_price
        notes := (l.get ⟨i, h⟩).notes } := by
  induction l generalizing s i with
  | nil => exact absurd h (Nat.not_lt_zero i)
  | cons it rest ih =>
      cases i with
      | zero => simp [mkItemRows]
      | succ n =>
          have hn : n < rest.length := Nat.lt_of_succ_lt_succ h
          have hsn : s + 1 + n = s + (n + 1) := by omega
          simp only [mkItemRows, List.get?_cons_succ, ih (s + 1) n hn, hsn]
          rfl

/-- Example: a single line item, two units at a unit price of 3. -/
def exItem1 : TransactionItemInput :=
  { menu_item_id := 1, quantity := 2, unit_price := 3, notes := none }

/-- Example input whose payment received (5) is less than its total (6). -/
def exInputShortPay : CreateTransactionInput :=
  { customer_name := none, customer_phone := none, items := [exItem1]
    subtotal := 6, tax_amount := 0, discount_amount := 0, total_amount := 6
    payment_method := PaymentMethod.CASH, payment_received := 5
    notes := none, cashier_id := 1 }

/-- Example input whose caller-supplied subtotal (100) disagrees with the sum
of its line item totals (6). -/
def exInputInconsistent : CreateTransactionInput :=
  { exInputShortPay with subtotal := 100, total_amount := 100, payment_received := 100 }

/-- C1: the returned (and persisted) transaction's `change_amount` equals
`payment_received - total_amount`, computed server-side; every boundary-valid
input is accepted by the endpoint, with no check that payment covers the
total, so the stored change may be negative. -/
theorem createTransaction_change_amount (db : DB) (input : CreateTransactionInput)
    (now : Nat) :
    (createTransaction db input now).2.change_amount
        = input.payment_received - input.total_amount
    ∧ (ValidCreateTransactionInput input →
        (apiCreateTransaction db input now true).2
          = Except.ok (createTransaction db input now).2) := by
  refine ⟨rfl, fun h => ?_⟩
  unfold apiCreateTransaction
  rw [if_pos h]
  rfl

theorem createTransaction_change_amount_witness :
    ((createTransaction emptyDB exInputShortPay 0).2.change_amount
        = exInputShortPay.payment_received - exInputShortPay.total_amount
      ∧ (createTransaction emptyDB exInputShortPay 0).2.change_amount < 0)
    ∧ (apiCreateTransaction emptyDB exInputShortPay 0 true).2
        = Except.ok (createTransaction emptyDB exInputShortPay 0).2 :=
  ⟨⟨(createTransaction_change_amount emptyDB exInputShortPay 0).1,
      by show (5 : Rat) - 6 < 0; norm_num⟩,
    (createTransaction_change_amount emptyDB exInputShortPay 0).2 (by decide)⟩

/-- C2: the `i`-th persisted line item row of a `createTransaction` call
carries the `i`-th input item's quantity and unit price and a server-computed
`total_price = quantity * unit_price`; the input schema admits no
client-supplied total at all. -/
theorem createTransaction_item_total_price (db : DB) (input : CreateTransactionInput)
    (now : Nat) (i : Nat) (h : i < input.items.length) :
    (createTransaction db input now).1.transactionItems.get?
        (db.transactionItems.length + i)
      = some
        { id := db.nextTransactionItemId + i
          transaction_id := db.nextTransactionId
          menu_item_id := (input.items.get ⟨i, h⟩).menu_item_id
          quantity := (input.items.get ⟨i, h⟩).quantity
          unit_price := (input.items.get ⟨i, h⟩).unit_price
          total_price := ((input.items.get ⟨i, h⟩).quantity : Rat)
            * (input.items.get ⟨i, h⟩).unit_price
          notes := (input.items.get ⟨i, h⟩).notes } := by
  show (db.transactionItems
      ++ mkItemRows db.nextTransactionId db.nextTransactionItemId input.items).get?
        (db.transactionItems.length + i) = _
  rw [List.get?_append_right (Nat.le_add_right _ _), Nat.add_sub_cancel_left]
  exact mkItemRows_get? _ _ _ i h

theorem createTransaction_item_total_price_witness :
    (createTransaction emptyDB exInputShortPay 0).1.transactionItems.get? 0
      = some
        { id := 1, transaction_id := 1, menu_item_id := 1, quantity := 2
          unit_price := 3, total_price := ((2 : Int) : Rat) * 3, notes := none } :=
  createTransaction_item_total_price emptyDB exInputShortPay 0 0 (by decide)

/-- C4: the header row stores the caller-supplied subtotal, tax, discount and
total verbatim — the engine never recomputes them from the line items and
never enforces `subtotal = Σ item.total_price` (the equalities hold for every
input, consistent or not, and boundary validity is independent of that
relation, so an inconsistent valid input is still accepted). -/
theorem createTransaction_header_passthrough (db : DB) (input : CreateTransactionInput)
    (now : Nat) :
    (createTransaction db input now).2.subtotal = input.subtotal
    ∧ (createTransaction db input now).2.tax_amount = input.tax_amount
    ∧ (createTransaction db input now).2.discount_amount = input.discount_amount
    ∧ (createTransaction db input now).2.total_amount = input.total_amount
    ∧ (createTransaction db input now).1.transactions
        = db.transactions ++ [(createTransaction db input now).2]
    ∧ (ValidCreateTransactionInput input →
        (apiCreateTransaction db input now true).2
          = Except.ok (createTransaction db input now).2) := by
  refine ⟨rfl, rfl, rfl, rfl, rfl, fun h => ?_⟩
  unfold apiCreateTransaction
  rw [if_pos h]
  rfl

theorem createTransaction_header_passthrough_witness :
    (createTransaction emptyDB exInputInconsistent 0).2.subtotal
        = exInputInconsistent.subtotal
    ∧ (createTransaction emptyDB exInputInconsistent 0).2.subtotal
        ≠ ((createTransaction emptyDB exInputInconsistent 0).1.transactionItems.map
            (fun it => it.total_price)).sum
    ∧ (apiCreateTransaction emptyDB exInputInconsistent 0 true).2
        = Except.ok (createTransaction emptyDB exInputInconsistent 0).2 :=
  ⟨(createTransaction_header_passthrough emptyDB exInputInconsistent 0).1,
    by show (100 : Rat) ≠ ((2 : Int) : Rat) * 3 + 0; norm_num,
    (createTransaction_header_passthrough emptyDB exInputInconsistent 0).2.2.2.2.2
      (by decide)⟩

theorem mkItemRows_transaction_id (txId s : Nat) (l : List TransactionItemInput) :
    ∀ row ∈ mkItemRows txId s l, row.transaction_id = txId := by
  induction l generalizing s with
  | nil => intro row hrow; cases hrow
  | cons it rest ih =>
      intro row hrow
      rcases List.mem_cons.mp hrow with h1 | h2
      · rw [h1]
      · exact ih (s + 1) row h2

theorem createTransaction_fst_transactions (db : DB) (input : CreateTransactionInput)
    (now : Nat) :
    (createTransaction db input now).1.transactions
      = db.transactions ++ [(createTransaction db input now).2] := rfl

theorem createTransaction_fst_items (db : DB) (input : CreateTransactionInput)
    (now : Nat) :
    (createTransaction db input now).1.transactionItems
      = db.transactionItems
        ++ mkItemRows db.nextTransactionId db.nextTransactionItemId input.items := rfl

theorem createTransaction_snd_id (db : DB) (input : CreateTransactionInput)
    (now : Nat) :
    (createTransaction db input now).2.id = db.nextTransactionId := rfl

/-- Well-formedness of the store: every persisted transaction id (and every
item's owning transaction id) is below the next serial id, so a freshly
assigned id collides with nothing.  This holds of the empty store and is
preserved by every operation. -/
def DB.WF (db : DB) : Prop :=
  (∀ t ∈ db.transactions, t.id < db.nextTransactionId)
  ∧ (∀ it ∈ db.transactionItems, it.transaction_id < db.nextTransactionId)

instance (db : DB) : Decidable db.WF := by
  unfold DB.WF
  infer_instance

/-- C3: the `createTransaction` endpoint persists the header and line items as
one atomic unit.  On success with N input items the store holds exactly one
header row with the new id and exactly the N inserted item rows owned by it;
on any failure (validation or persistence) the store is exactly as before the
call — no partial transaction is ever visible. -/
theorem createTransaction_atomic (db : DB) (input : CreateTransactionInput) (now : Nat)
    (commitOk : Bool) (hwf : db.WF) :
    (∀ tx, (apiCreateTransaction db input now commitOk).2 = Except.ok tx →
        ((apiCreateTransaction db input now commitOk).1.transactions.filter
            (fun t => t.id == tx.id) = [tx]
          ∧ (apiCreateTransaction db input now commitOk).1.transactionItems.filter
              (fun it => it.transaction_id == tx.id)
              = mkItemRows tx.id db.nextTransactionItemId input.items
          ∧ ((apiCreateTransaction db input now commitOk).1.transactionItems.filter
              (fun it => it.transaction_id == tx.id)).length = input.items.length))
    ∧ (∀ e, (apiCreateTransaction db input now commitOk).2 = Except.error e →
        (apiCreateTransaction db input now commitOk).1 = db) := by
  by_cases hv : ValidCreateTransactionInput input
  · cases commitOk with
    | false =>
        have happ : apiCreateTransaction db input now false
            = (db, Except.error ApiError.persistence) := by
          unfold apiCreateTransaction
          rw [if_pos hv]
          rfl
        rw [happ]
        exact ⟨fun tx heq => (nomatch heq), fun e _ => rfl⟩
    | true =>
        have happ : apiCreateTransaction db input now true
            = ((createTransaction db input now).1,
                Except.ok (createTransaction db input now).2) := by
          unfold apiCreateTransaction
          rw [if_pos hv]
          rfl
        rw [happ]
        constructor
        · intro tx heq
          have htx : (createTransaction db input now).2 = tx := by
            injection heq
          subst htx
          have hA : (createTransaction db input now).1.transactions.filter
              (fun t => t.id == (createTransaction db input now).2.id)
              = [(createTransaction db input now).2] := by
            rw [createTransaction_fst_transactions, List.filter_append]
            have h1 : db.transactions.filter
                (fun t => t.id == (createTransaction db input now).2.id) = [] := by
              refine List.filter_eq_nil_iff.mpr ?_
              intro t ht
              have hlt := hwf.1 t ht
              rw [createTransaction_snd_id]
              simp only [beq_iff_eq]
              exact Nat.ne_of_lt hlt
            rw [h1]
            simp
          have hB : (createTransaction db input now).1.transactionItems.filter
              (fun it => it.transaction_id == (createTransaction db input now).2.id)
              = mkItemRows (createTransaction db input now).2.id
                  db.nextTransactionItemId input.items := by
            rw [createTransaction_fst_items, List.filter_append, createTransaction_snd_id]
            have h1 : db.transactionItems.filter
                (fun it => it.transaction_id == db.nextTransactionId) = [] := by
              refine List.filter_eq_nil_iff.mpr ?_
              intro it hit
              have hlt := hwf.2 it hit
              simp only [beq_iff_eq]
              exact Nat.ne_of_lt hlt
            have h2 : (mkItemRows db.nextTransactionId db.nextTransactionItemId
                input.items).filter
                (fun it => it.transaction_id == db.nextTransactionId)
                = mkItemRows db.nextTransactionId db.nextTransactionItemId input.items := by
              refine List.filter_eq_self.mpr ?_
              intro row hrow
              have := mkItemRows_transaction_id db.nextTransactionId
                db.nextTransactionItemId input.items row hrow
              simp [this]
            rw [h1, h2]
            rfl
          refine ⟨hA, hB, ?_⟩
          rw [hB, createTransaction_snd_id, mkItemRows_length]
        · intro e heq
          cases heq
  · have happ : apiCreateTransaction db input now commitOk
        = (db, Except.error ApiError.validation) := by
      unfold apiCreateTransaction
      rw [if_neg hv]
    rw [happ]
    exact ⟨fun tx heq => (nomatch heq), fun e _ => rfl⟩

theorem createTransaction_atomic_witness :
    (apiCreateTransaction emptyDB exInputShortPay 0 true).1.transactions.filter
        (fun t => t.id == (createTransaction emptyDB exInputShortPay 0).2.id)
        = [(createTransaction emptyDB exInputShortPay 0).2]
    ∧ ((apiCreateTransaction emptyDB exInputShortPay 0 true).1.transactionItems.filter
        (fun it => it.transaction_id
          == (createTransaction emptyDB exInputShortPay 0).2.id)).length
        = exInputShortPay.items.length :=
  have h := (createTransaction_atomic emptyDB exInputShortPay 0 true (by decide)).1
    (createTransaction emptyDB exInputShortPay 0).2
    (by unfold apiCreateTransaction
        rw [if_pos (by decide : ValidCreateTransactionInput exInputShortPay)]
        rfl)
  ⟨h.1, h.2.2⟩

/-- Milliseconds per calendar day. -/
def msPerDay : Nat := 86400000

/-- Start of the calendar day containing `date` (`setHours(0,0,0,0)`). -/
def dayStart (date : Nat) : Nat := date - date % msPerDay

/-- End of the calendar day containing `date` (`setHours(23,59,59,999)`). -/
def dayEnd (date : Nat) : Nat := dayStart date + (msPerDay - 1)

/-- The inclusive calendar-day window test used by `getDailySalesReport`. -/
def inDayWindow (date t : Nat) : Bool :=
  decide (dayStart date ≤ t) && decide (t ≤ dayEnd date)

/-- The transactions whose `transaction_date` lies in the calendar-day window
of `date` (the rows matched by the daily-totals query). -/
def dailyTransactions (db : DB) (date : Nat) : List TransactionRow :=
  db.transactions.filter (fun t => inDayWindow date t.transaction_date)

/-- Lookup of a transaction row by primary key (the join on
`transaction_items.transaction_id = transactions.id`). -/
def lookupTransaction (db : DB) (id : Nat) : Option TransactionRow :=
  db.transactions.find? (fun t => t.id == id)

/-- Lookup of a menu item row by primary key (the join on
`transaction_items.menu_item_id = menu_items.id`). -/
def lookupMenuItem (db : DB) (id : Nat) : Option MenuItemRow :=
  db.menuItems.find? (fun m => m.id == id)

/-- The transaction item rows whose owning transaction falls in the
calendar-day window of `date` (the inner join of the top-sellers query). -/
def dayItems (db : DB) (date : Nat) : List TransactionItemRow :=
  db.transactionItems.filter (fun it =>
    match lookupTransaction db it.transaction_id with
    | some t => inDayWindow date t.transaction_date
    | none => false)

/-- The distinct menu-item ids of a list of item rows, in first-occurrence
order (the grouping keys of `GROUP BY menu_items.id`). -/
def firstKeys (seen : List Nat) : List TransactionItemRow → List Nat
  | [] => []
  | it :: rest =>
      if it.menu_item_id ∈ seen then firstKeys seen rest
      else it.menu_item_id :: firstKeys (it.menu_item_id :: seen) rest

/-- Summed quantity of the rows of one grouping key (`sum(quantity)`). -/
def groupQuantity (items : List TransactionItemRow) (key : Nat) : Int :=
  ((items.filter (fun it => it.menu_item_id == key)).map (fun it => it.quantity)).sum

/-- Summed revenue of the rows of one grouping key (`sum(total_price)`). -/
def groupRevenue (items : List TransactionItemRow) (key : Nat) : Rat :=
  ((items.filter (fun it => it.menu_item_id == key)).map (fun it => it.total_price)).sum

/-- One entry of `topSellingItems`: display name, summed quantity, summed
revenue. -/
structure TopSellingEntry where
  name : String
  quantity : Int
  revenue : Rat
deriving DecidableEq, Repr

/-- One aggregated group of the top-sellers query; the inner join with
`menu_items` drops a key without a matching menu item row. -/
def groupFor (db : DB) (items : List TransactionItemRow) (key : Nat) :
    Option TopSellingEntry :=
  match lookupMenuItem db key with
  | some m => some
      { name := m.name
        quantity := groupQuantity items key
        revenue := groupRevenue items key }
  | none => none

/-- The descending-by-quantity order of `ORDER BY desc(sum(quantity))`. -/
def qtyGE (a b : TopSellingEntry) : Prop := b.quantity ≤ a.quantity

instance : DecidableRel qtyGE :=
  fun a b => (inferInstance : Decidable (b.quantity ≤ a.quantity))

instance : IsTotal TopSellingEntry qtyGE :=
  ⟨fun a b => le_total b.quantity a.quantity⟩

instance : IsTrans TopSellingEntry qtyGE :=
  ⟨fun _ _ _ h1 h2 => le_trans h2 h1⟩

/-- All aggregated per-menu-item groups of the day, in grouping order, before
sorting and the limit. -/
def topSellingGroups (db : DB) (date : Nat) : List TopSellingEntry :=
  (firstKeys [] (dayItems db date)).filterMap (groupFor db (dayItems db date))

/-- The result shape of `getDailySalesReport`. -/
structure DailySalesReport where
  totalSales : Rat
  totalTransactions : Nat
  averageTransaction : Rat
  topSellingItems : List TopSellingEntry
deriving DecidableEq, Repr

/-- The `getDailySalesReport` handler: daily totals over the calendar-day
window, the average guarded against division by zero, and the top ten selling
items sorted descending by summed quantity. -/
def getDailySalesReport (db : DB) (date : Nat) : DailySalesReport :=
  { totalSales := ((dailyTransactions db date).map (fun t => t.total_amount)).sum
    totalTransactions := (dailyTransactions db date).length
    averageTransaction :=
      if 0 < (dailyTransactions db date).length then
        ((dailyTransactions db date).map (fun t => t.total_amount)).sum
          / ((dailyTransactions db date).length : Rat)
      else 0
    topSellingItems := (List.insertionSort qtyGE (topSellingGroups db date)).take 10 }

theorem dayItems_eq_nil (db : DB) (date : Nat) (h : dailyTransactions db date = []) :
    dayItems db date = [] := by
  unfold dayItems
  refine List.filter_eq_nil_iff.mpr ?_
  intro it hit
  cases hfind : lookupTransaction db it.transaction_id with
  | none => simp [hfind]
  | some t =>
      have ht : t ∈ db.transactions := List.mem_of_find?_eq_some hfind
      by_cases hw : inDayWindow date t.transaction_date = true
      · exfalso
        have hmem : t ∈ dailyTransactions db date := List.mem_filter.mpr ⟨ht, hw⟩
        rw [h] at hmem
        cases hmem
      · simp [hfind, hw]

/-- C5: `topSellingItems` is sorted descending by aggregated quantity, is the
ten-entry truncation of the full per-menu-item grouping of the day, and each
entry carries an existing menu item's display name together with the summed
quantity and summed revenue of that item's rows within the window. -/
theorem dailyReport_topSelling (db : DB) (date : Nat) :
    List.Sorted qtyGE (getDailySalesReport db date).topSellingItems
    ∧ (getDailySalesReport db date).topSellingItems.length
        = min 10 (topSellingGroups db date).length
    ∧ ∀ e ∈ (getDailySalesReport db date).topSellingItems,
        ∃ m ∈ db.menuItems,
          e.name = m.name
          ∧ e.quantity = groupQuantity (dayItems db date) m.id
          ∧ e.revenue = groupRevenue (dayItems db date) m.id := by
  refine ⟨?_, ?_, ?_⟩
  · exact List.Pairwise.sublist (List.take_sublist _ _)
      (List.sorted_insertionSort qtyGE _)
  · show ((List.insertionSort qtyGE (topSellingGroups db date)).take 10).length = _
    rw [List.length_take,
      (List.perm_insertionSort qtyGE (topSellingGroups db date)).length_eq]
  · intro e he
    have he1 : e ∈ List.insertionSort qtyGE (topSellingGroups db date) :=
      List.take_subset _ _ he
    have he2 : e ∈ topSellingGroups db date :=
      (List.perm_insertionSort qtyGE (topSellingGroups db date)).mem_iff.mp he1
    rcases List.mem_filterMap.mp he2 with ⟨key, _, hsome⟩
    unfold groupFor at hsome
    cases hfind : lookupMenuItem db key with
    | none => rw [hfind] at hsome; cases hsome
    | some m =>
        rw [hfind] at hsome
        have hm : m ∈ db.menuItems := List.mem_of_find?_eq_some hfind
        have hid : m.id = key := by
          have hp := List.find?_some hfind
          simpa [beq_iff_eq] using hp
        injection hsome with hsome
        refine ⟨m, hm, ?_, ?_, ?_⟩
        · rw [← hsome]
        · rw [← hsome, hid]
        · rw [← hsome, hid]

/-- C6: on a day with no transactions the report is all zeros with an empty
top-sellers list and the zero-guard keeps the average at 0 without dividing;
on a day with transactions the average is total sales over the count. -/
theorem dailyReport_empty_and_average (db : DB) (date : Nat) :
    (dailyTransactions db date = [] →
      getDailySalesReport db date
        = { totalSales := 0, totalTransactions := 0
            averageTransaction := 0, topSellingItems := [] })
    ∧ (dailyTransactions db date ≠ [] →
      (getDailySalesReport db date).averageTransaction
        = (getDailySalesReport db date).totalSales
          / ((getDailySalesReport db date).totalTransactions : Rat)) := by
  constructor
  · intro h
    have hitems := dayItems_eq_nil db date h
    unfold getDailySalesReport topSellingGroups
    rw [h, hitems]
    simp [firstKeys]
  · intro h
    have hpos : 0 < (dailyTransactions db date).length := List.length_pos.mpr h
    unfold getDailySalesReport
    simp only [if_pos hpos]

/-- Example persisted transaction on the day containing time 500. -/
def exTxRow : TransactionRow :=
  { id := 1, transaction_date := 500, customer_name := none, customer_phone := none
    subtotal := 10, tax_amount := 0, discount_amount := 0, total_amount := 10
    payment_method := PaymentMethod.CASH, payment_received := 10, change_amount := 0
    notes := none, cashier_id := 1, created_at := 500 }

/-- Example menu item referenced by the example item row. -/
def exMenuRow : MenuItemRow :=
  { id := 1, name := "Kopi Susu", description := none, price := 3, category_id := 1
    is_available := true, image_url := none, created_at := 0, updated_at := none }

/-- Example persisted line item of `exTxRow`. -/
def exItemRow : TransactionItemRow :=
  { id := 1, transaction_id := 1, menu_item_id := 1, quantity := 2, unit_price := 3
    total_price := 6, notes := none }

/-- Example store with one transaction, one item row and one menu item. -/
def exDB5 : DB :=
  { emptyDB with
      menuItems := [exMenuRow]
      transactions := [exTxRow]
      transactionItems := [exItemRow]
      nextTransactionId := 2
      nextTransactionItemId := 2
      nextMenuItemId := 2 }

/-- The single top-sellers entry arising from `exDB5` on day 500. -/
def exEntry : TopSellingEntry :=
  { name := "Kopi Susu"
    quantity := groupQuantity (dayItems exDB5 500) 1
    revenue := groupRevenue (dayItems exDB5 500) 1 }

theorem dailyReport_topSelling_witness :
    ∃ m ∈ exDB5.menuItems,
      exEntry.name = m.name
      ∧ exEntry.quantity = groupQuantity (dayItems exDB5 500) m.id
      ∧ exEntry.revenue = groupRevenue (dayItems exDB5 500) m.id :=
  (dailyReport_topSelling exDB5 500).2.2 exEntry
    (by show exEntry ∈ [exEntry]
        exact List.mem_singleton.mpr rfl)

/-- Example store with one transaction on day 500 (no items needed). -/
def exDB6 : DB := { emptyDB with transactions := [exTxRow], nextTransactionId := 2 }

theorem dailyReport_empty_and_average_witness :
    getDailySalesReport emptyDB 0
      = { totalSales := 0, totalTransactions := 0
          averageTransaction := 0, topSellingItems := [] }
    ∧ (getDailySalesReport exDB6 500).averageTransaction
      = (getDailySalesReport exDB6 500).totalSales
        / ((getDailySalesReport exDB6 500).totalTransactions : Rat) :=
  ⟨(dailyReport_empty_and_average emptyDB 0).1 (by decide),
   (dailyReport_empty_and_average exDB6 500).2 (by decide)⟩

/-- A hydrated transaction as returned by the read queries: the header, its
item rows, and the cashier's display name. -/
structure TransactionWithItems where
  tx : TransactionRow
  items : List TransactionItemRow
  cashier_full_name : String
deriving DecidableEq, Repr

/-- Hydration of one header row by `getTransactions`: the inner join with
`users` attaches the cashier's display name (a row whose cashier id matches no
user is dropped by the join), and the item grouping attaches the row's items
in stored order. -/
def hydrate (db : DB) (t : TransactionRow) : Option TransactionWithItems :=
  match db.users.find? (fun u => u.id == t.cashier_id) with
  | some u => some
      { tx := t
        items := db.transactionItems.filter (fun it => it.transaction_id == t.id)
        cashier_full_name := u.full_name }
  | none => none

/-- The pagination branch structure of `getTransactions`: limit and offset are
both applied when both are given, only the limit when the offset is absent,
and neither when the limit is absent — an offset without a limit is ignored. -/
def pageRows (rows : List TransactionRow) :
    Option Nat → Option Nat → List TransactionRow
  | some l, some o => (rows.drop o).take l
  | some l, none => rows.take l
  | none, _ => rows

/-- The `getTransactions` handler, parameterised by the header row order the
database delivers for `ORDER BY created_at DESC`. -/
def getTransactionsDelivered (db : DB) (rows : List TransactionRow)
    (limit offset : Option Nat) : List TransactionWithItems :=
  (pageRows rows limit offset).filterMap (hydrate db)

/-- The delivered orders admissible under the query's sole ordering clause:
a permutation of the transactions table sorted descending by `created_at`
(the SQL fixes nothing further, so ties may come back in any order). -/
def DeliveredOrderOK (db : DB) (rows : List TransactionRow) : Prop :=
  rows.Perm db.transactions
  ∧ rows.Pairwise (fun a b => b.created_at ≤ a.created_at)

theorem pageRows_sublist (rows : List TransactionRow) (limit offset : Option Nat) :
    List.Sublist (pageRows rows limit offset) rows := by
  cases limit with
  | none =>
      cases offset with
      | none => exact List.Sublist.refl _
      | some o => exact List.Sublist.refl _
  | some l =>
      cases offset with
      | none => exact List.take_sublist l rows
      | some o =>
          exact List.Sublist.trans (List.take_sublist l (rows.drop o))
            (List.drop_sublist o rows)

theorem hydrate_tx (db : DB) (t : TransactionRow) (w : TransactionWithItems)
    (h : hydrate db t = some w) : w.tx = t := by
  unfold hydrate at h
  cases hfind : db.users.find? (fun u => u.id == t.cashier_id) with
  | none => rw [hfind] at h; cases h
  | some u =>
      rw [hfind] at h
      injection h with h
      rw [← h]

/-- Example cashier referenced by the example transactions. -/
def exUser : UserRow :=
  { id := 1, username := "kasir1", password := "pw", role := Role.KASIR
    full_name := "Kasir Satu", is_active := true, created_at := 0
    updated_at := none }

/-- First of two transactions sharing one creation timestamp. -/
def exTx1 : TransactionRow :=
  { exTxRow with id := 1, transaction_date := 100, created_at := 100 }

/-- Second of two transactions sharing one creation timestamp. -/
def exTx2 : TransactionRow :=
  { exTxRow with id := 2, transaction_date := 100, created_at := 100 }

/-- Example store with two equal-timestamp transactions and their cashier. -/
def exDB7 : DB :=
  { emptyDB with
      users := [exUser]
      transactions := [exTx1, exTx2]
      nextTransactionId := 3 }

/-- C7 counterexample: the query orders by `created_at` alone, so with two
stored transactions sharing one creation timestamp both id orders are
admissible delivered orders, and `getTransactions` returns them as delivered —
no id tie-break is applied and the result order is not deterministic. -/
theorem getTransactions_no_id_tiebreak :
    exTx1.created_at = exTx2.created_at
    ∧ DeliveredOrderOK exDB7 [exTx1, exTx2]
    ∧ DeliveredOrderOK exDB7 [exTx2, exTx1]
    ∧ (getTransactionsDelivered exDB7 [exTx1, exTx2] none none).map
        (fun w => w.tx.id) = [1, 2]
    ∧ (getTransactionsDelivered exDB7 [exTx2, exTx1] none none).map
        (fun w => w.tx.id) = [2, 1] := by
  refine ⟨rfl, ⟨List.Perm.refl _, ?_⟩, ⟨List.Perm.swap exTx1 exTx2 [], ?_⟩, rfl, rfl⟩
  · exact List.pairwise_pair.mpr (le_refl _)
  · exact List.pairwise_pair.mpr (le_refl _)

/-- C7 amended: for every delivered order admissible under the query's
`ORDER BY created_at DESC`, the returned list is ordered newest-first by
creation timestamp; the code applies no secondary sort key, so among equal
timestamps the order is whatever the database delivers. -/
theorem getTransactions_sorted_by_created_at (db : DB) (rows : List TransactionRow)
    (limit offset : Option Nat) (h : DeliveredOrderOK db rows) :
    (getTransactionsDelivered db rows limit offset).Pairwise
      (fun a b => b.tx.created_at ≤ a.tx.created_at) := by
  have hp : (pageRows rows limit offset).Pairwise
      (fun a b => b.created_at ≤ a.created_at) :=
    List.Pairwise.sublist (pageRows_sublist rows limit offset) h.2
  refine List.Pairwise.filterMap (hydrate db) ?_ hp
  intro a b hab w hw w2 hw2
  have ha : w.tx = a := hydrate_tx db a w hw
  have hb : w2.tx = b := hydrate_tx db b w2 hw2
  rw [ha, hb]
  exact hab

theorem getTransactions_sorted_by_created_at_witness :
    (getTransactionsDelivered exDB7 [exTx1, exTx2] none none).Pairwise
      (fun a b => b.tx.created_at ≤ a.tx.created_at) :=
  getTransactions_sorted_by_created_at exDB7 [exTx1, exTx2] none none
    ⟨List.Perm.refl _, List.pairwise_pair.mpr (le_refl _)⟩

/-- C10: with an offset but no limit, `getTransactions` takes the unpaginated
branch: the offset is ignored and the result is the same full hydrated list
as a call with no pagination arguments at all. -/
theorem getTransactions_offset_without_limit_ignored (db : DB)
    (rows : List TransactionRow) (o : Nat) :
    getTransactionsDelivered db rows none (some o)
      = getTransactionsDelivered db rows none none := rfl

/-- C8: a request violating any listed shape or sign constraint — empty item
list, non-positive quantity or unit price, non-positive subtotal, total or
payment received, negative tax or discount — fails the boundary validation:
the endpoint returns a validation error before the engine runs and the store
is unchanged, so nothing is written. -/
theorem createTransaction_boundary_rejects (db : DB) (input : CreateTransactionInput)
    (now : Nat) (commitOk : Bool)
    (h : input.items = []
      ∨ (∃ it ∈ input.items, it.quantity ≤ 0)
      ∨ (∃ it ∈ input.items, it.unit_price ≤ 0)
      ∨ input.subtotal ≤ 0
      ∨ input.total_amount ≤ 0
      ∨ input.payment_received ≤ 0
      ∨ input.tax_amount < 0
      ∨ input.discount_amount < 0) :
    apiCreateTransaction db input now commitOk
      = (db, Except.error ApiError.validation) := by
  have hv : ¬ ValidCreateTransactionInput input := by
    intro hvalid
    obtain ⟨hlen, hitems, hsub, htax, hdisc, htot, hpay⟩ := hvalid
    rcases h with h | h | h | h | h | h | h | h
    · rw [h] at hlen
      exact absurd hlen (by simp)
    · rcases h with ⟨it, hmem, hle⟩
      exact absurd (hitems it hmem).1 (not_lt.mpr hle)
    · rcases h with ⟨it, hmem, hle⟩
      exact absurd (hitems it hmem).2 (not_lt.mpr hle)
    · exact absurd hsub (not_lt.mpr h)
    · exact absurd htot (not_lt.mpr h)
    · exact absurd hpay (not_lt.mpr h)
    · exact absurd htax (not_le.mpr h)
    · exact absurd hdisc (not_le.mpr h)
  unfold apiCreateTransaction
  rw [if_neg hv]

/-- Example request with an empty cart. -/
def exInputEmpty : CreateTransactionInput := { exInputShortPay with items := [] }

theorem createTransaction_boundary_rejects_witness :
    apiCreateTransaction emptyDB exInputEmpty 0 true
      = (emptyDB, Except.error ApiError.validation) :=
  createTransaction_boundary_rejects emptyDB exInputEmpty 0 true (Or.inl rfl)

/-- A `login` request body. -/
structure LoginInput where
  username : String
  password : String
deriving DecidableEq, Repr

/-- A `createUser` request body. -/
structure CreateUserInput where
  username : String
  password : String
  role : Role
  full_name : String
deriving DecidableEq, Repr

/-- A `createCategory` request body. -/
structure CreateCategoryInput where
  name : String
  description : Option String
deriving DecidableEq, Repr

/-- An `updateCategory` request body (outer `Option` = field absent). -/
structure UpdateCategoryInput where
  id : Nat
  name : Option String
  description : Option (Option String)
  is_active : Option Bool
deriving DecidableEq, Repr

/-- A `createMenuItem` request body. -/
structure CreateMenuItemInput where
  name : String
  description : Option String
  price : Rat
  category_id : Nat
  image_url : Option String
deriving DecidableEq, Repr

/-- An `updateMenuItem` request body (outer `Option` = field absent). -/
structure UpdateMenuItemInput where
  id : Nat
  name : Option String
  description : Option (Option String)
  price : Option Rat
  category_id : Option Nat
  is_available : Option Bool
  image_url : Option (Option String)
deriving DecidableEq, Repr

/-- State effect of the `createUser` handler: rejected on a duplicate
username, otherwise one user row is appended. -/
def applyCreateUser (db : DB) (inp : CreateUserInput) (now : Nat) : DB :=
  if db.users.any (fun u => u.username == inp.username) then db
  else
    { db with
        users := db.users ++
          [{ id := db.nextUserId, username := inp.username
             password := inp.password, role := inp.role
             full_name := inp.full_name, is_active := true
             created_at := now, updated_at := none }]
        nextUserId := db.nextUserId + 1 }

/-- State effect of `initializeDefaultAdmin`: nothing when a user named
`admin` exists, otherwise the default admin row is appended. -/
def applyInitializeAdmin (db : DB) (now : Nat) : DB :=
  if db.users.any (fun u => u.username == "admin") then db
  else
    { db with
        users := db.users ++
          [{ id := db.nextUserId, username := "admin", password := "admin123"
             role := Role.ADMIN, full_name := "System Administrator"
             is_active := true, created_at := now, updated_at := none }]
        nextUserId := db.nextUserId + 1 }

/-- State effect of the `createCategory` handler: one category row appended. -/
def applyCreateCategory (db : DB) (inp : CreateCategoryInput) (now : Nat) : DB :=
  { db with
      categories := db.categories ++
        [{ id := db.nextCategoryId, name := inp.name
           description := inp.description, is_active := true
           created_at := now, updated_at := none }]
      nextCategoryId := db.nextCategoryId + 1 }

/-- The row update performed by `updateCategory` on the matching id. -/
def updateCategoryRow (inp : UpdateCategoryInput) (now : Nat) (c : CategoryRow) :
    CategoryRow :=
  if c.id == inp.id then
    { c with
        name := inp.name.getD c.name
        description := inp.description.getD c.description
        is_active := inp.is_active.getD c.is_active
        updated_at := some now }
  else c

/-- State effect of the `updateCategory` handler (an unmatched id changes
nothing and the handler reports an error). -/
def applyUpdateCategory (db : DB) (inp : UpdateCategoryInput) (now : Nat) : DB :=
  { db with categories := db.categories.map (updateCategoryRow inp now) }

/-- State effect of the `deleteCategory` handler: soft delete by clearing the
active flag on the matching row. -/
def applyDeleteCategory (db : DB) (id : Nat) (now : Nat) : DB :=
  { db with
      categories := db.categories.map (fun c =>
        if c.id == id then { c with is_active := false, updated_at := some now }
        else c) }

/-- State effect of the `createMenuItem` handler: rejected unless the target
category exists and is active, otherwise one menu item row is appended. -/
def applyCreateMenuItem (db : DB) (inp : CreateMenuItemInput) (now : Nat) : DB :=
  if db.categories.any (fun c => c.id == inp.category_id && c.is_active) then
    { db with
        menuItems := db.menuItems ++
          [{ id := db.nextMenuItemId, name := inp.name
             description := inp.description, price := inp.price
             category_id := inp.category_id, is_available := true
             image_url := inp.image_url, created_at := now, updated_at := none }]
        nextMenuItemId := db.nextMenuItemId + 1 }
  else db

/-- The row update performed by `updateMenuItem` on the matching id. -/
def updateMenuItemRow (inp : UpdateMenuItemInput) (now : Nat) (m : MenuItemRow) :
    MenuItemRow :=
  if m.id == inp.id then
    { m with
        name := inp.name.getD m.name
        description := inp.description.getD m.description
        price := inp.price.getD m.price
        category_id := inp.category_id.getD m.category_id
        is_available := inp.is_available.getD m.is_available
        image_url := inp.image_url.getD m.image_url
        updated_at := some now }
  else m

/-- State effect of the `updateMenuItem` handler: rejected when the item does
not exist or a supplied category id names no active category, otherwise the
matching row is updated in place. -/
def applyUpdateMenuItem (db : DB) (inp : UpdateMenuItemInput) (now : Nat) : DB :=
  if db.menuItems.any (fun m => m.id == inp.id) then
    if (match inp.category_id with
        | some cid => db.categories.any (fun c => c.id == cid && c.is_active)
        | none => true) then
      { db with menuItems := db.menuItems.map (updateMenuItemRow inp now) }
    else db
  else db

/-- State effect of the `deleteMenuItem` handler: rejected when the item does
not exist, otherwise soft delete by clearing the availability flag. -/
def applyDeleteMenuItem (db : DB) (id : Nat) (now : Nat) : DB :=
  if db.menuItems.any (fun m => m.id == id) then
    { db with
        menuItems := db.menuItems.map (fun m =>
          if m.id == id then { m with is_available := false, updated_at := some now }
          else m) }
  else db

/-- The full remote-procedure surface of `appRouter`. -/
inductive ApiOp where
  | healthcheck
  | login (inp : LoginInput)
  | createUser (inp : CreateUserInput)
  | initializeAdmin
  | getCategories
  | getCategoryById (id : Nat)
  | createCategory (inp : CreateCategoryInput)
  | updateCategory (inp : UpdateCategoryInput)
  | deleteCategory (id : Nat)
  | getMenuItems
  | getMenuItemsByCategory (id : Nat)
  | getMenuItemById (id : Nat)
  | createMenuItem (inp : CreateMenuItemInput)
  | updateMenuItem (inp : UpdateMenuItemInput)
  | deleteMenuItem (id : Nat)
  | getTransactionsOp (limit offset : Option Nat)
  | getTransactionByIdOp (id : Nat)
  | createTransactionOp (inp : CreateTransactionInput) (commitOk : Bool)
  | getTransactionsByDateRangeOp (startDate endDate : Nat)
  | getTransactionsByCashierOp (id : Nat)
  | getDailySalesReportOp (date : Nat)
deriving DecidableEq, Repr

/-- The state transition of one remote procedure call: query endpoints leave
the store untouched, mutation endpoints apply their handler's state effect. -/
def applyOp (db : DB) (op : ApiOp) (now : Nat) : DB :=
  match op with
  | ApiOp.healthcheck => db
  | ApiOp.login _ => db
  | ApiOp.createUser inp => applyCreateUser db inp now
  | ApiOp.initializeAdmin => applyInitializeAdmin db now
  | ApiOp.getCategories => db
  | ApiOp.getCategoryById _ => db
  | ApiOp.createCategory inp => applyCreateCategory db inp now
  | ApiOp.updateCategory inp => applyUpdateCategory db inp now
  | ApiOp.deleteCategory id => applyDeleteCategory db id now
  | ApiOp.getMenuItems => db
  | ApiOp.getMenuItemsByCategory _ => db
  | ApiOp.getMenuItemById _ => db
  | ApiOp.createMenuItem inp => applyCreateMenuItem db inp now
  | ApiOp.updateMenuItem inp => applyUpdateMenuItem db inp now
  | ApiOp.deleteMenuItem id => applyDeleteMenuItem db id now
  | ApiOp.getTransactionsOp _ _ => db
  | ApiOp.getTransactionByIdOp _ => db
  | ApiOp.createTransactionOp inp commitOk =>
      (apiCreateTransaction db inp now commitOk).1
  | ApiOp.getTransactionsByDateRangeOp _ _ => db
  | ApiOp.getTransactionsByCashierOp _ => db
  | ApiOp.getDailySalesReportOp _ => db

theorem append_only_of_eq {α : Type} {l l2 : List α} (h : l2 = l) :
    ∃ n, l2 = l ++ n :=
  ⟨[], by rw [h, List.append_nil]⟩

/-- C9: no exposed operation ever updates or deletes a persisted transaction
row or transaction-item row — after any remote procedure call the two ledger
tables are exactly their previous contents, possibly extended at the end by
the rows of a successful `createTransaction`. -/
theorem transactions_append_only (db : DB) (op : ApiOp) (now : Nat) :
    (∃ newTxs, (applyOp db op now).transactions = db.transactions ++ newTxs)
    ∧ (∃ newItems,
        (applyOp db op now).transactionItems = db.transactionItems ++ newItems) := by
  cases op with
  | healthcheck => exact ⟨append_only_of_eq rfl, append_only_of_eq rfl⟩
  | login inp => exact ⟨append_only_of_eq rfl, append_only_of_eq rfl⟩
  | createUser inp =>
      have hp : (applyCreateUser db inp now).transactions = db.transactions
          ∧ (applyCreateUser db inp now).transactionItems = db.transactionItems := by
        unfold applyCreateUser
        split <;> exact ⟨rfl, rfl⟩
      exact ⟨append_only_of_eq hp.1, append_only_of_eq hp.2⟩
  | initializeAdmin =>
      have hp : (applyInitializeAdmin db now).transactions = db.transactions
          ∧ (applyInitializeAdmin db now).transactionItems = db.transactionItems := by
        unfold applyInitializeAdmin
        split <;> exact ⟨rfl, rfl⟩
      exact ⟨append_only_of_eq hp.1, append_only_of_eq hp.2⟩
  | getCategories => exact ⟨append_only_of_eq rfl, append_only_of_eq rfl⟩
  | getCategoryById id => exact ⟨append_only_of_eq rfl, append_only_of_eq rfl⟩
  | createCategory inp => exact ⟨append_only_of_eq rfl, append_only_of_eq rfl⟩
  | updateCategory inp => exact ⟨append_only_of_eq rfl, append_only_of_eq rfl⟩
  | deleteCategory id => exact ⟨append_only_of_eq rfl, append_only_of_eq rfl⟩
  | getMenuItems => exact ⟨append_only_of_eq rfl, append_only_of_eq rfl⟩
  | getMenuItemsByCategory id => exact ⟨append_only_of_eq rfl, append_only_of_eq rfl⟩
  | getMenuItemById id => exact ⟨append_only_of_eq rfl, append_only_of_eq rfl⟩
  | createMenuItem inp =>
      have hp : (applyCreateMenuItem db inp now).transactions = db.transactions
          ∧ (applyCreateMenuItem db inp now).transactionItems = db.transactionItems := by
        unfold applyCreateMenuItem
        split <;> exact ⟨rfl, rfl⟩
      exact ⟨append_only_of_eq hp.1, append_only_of_eq hp.2⟩
  | updateMenuItem inp =>
      have hp : (applyUpdateMenuItem db inp now).transactions = db.transactions
          ∧ (applyUpdateMenuItem db inp now).transactionItems = db.transactionItems := by
        unfold applyUpdateMenuItem
        split
        · split <;> exact ⟨rfl, rfl⟩
        · exact ⟨rfl, rfl⟩
      exact ⟨append_only_of_eq hp.1, append_only_of_eq hp.2⟩
  | deleteMenuItem id =>
      have hp : (applyDeleteMenuItem db id now).transactions = db.transactions
          ∧ (applyDeleteMenuItem db id now).transactionItems = db.transactionItems := by
        unfold applyDeleteMenuItem
        split <;> exact ⟨rfl, rfl⟩
      exact ⟨append_only_of_eq hp.1, append_only_of_eq hp.2⟩
  | getTransactionsOp limit offset =>
      exact ⟨append_only_of_eq rfl, append_only_of_eq rfl⟩
  | getTransactionByIdOp id => exact ⟨append_only_of_eq rfl, append_only_of_eq rfl⟩
  | createTransactionOp inp commitOk =>
      by_cases hv : ValidCreateTransactionInput inp
      · cases commitOk with
        | true =>
            have happ : (apiCreateTransaction db inp now true).1
                = (createTransaction db inp now).1 := by
              unfold apiCreateTransaction
              rw [if_pos hv]
              rfl
            constructor
            · refine ⟨[(createTransaction db inp now).2], ?_⟩
              show (apiCreateTransaction db inp now true).1.transactions = _
              rw [happ, createTransaction_fst_transactions]
            · refine ⟨mkItemRows db.nextTransactionId db.nextTransactionItemId
                inp.items, ?_⟩
              show (apiCreateTransaction db inp now true).1.transactionItems = _
              rw [happ, createTransaction_fst_items]
        | false =>
            have happ : (apiCreateTransaction db inp now false).1 = db := by
              unfold apiCreateTransaction
              rw [if_pos hv]
              rfl
            exact ⟨append_only_of_eq (congrArg DB.transactions happ),
                   append_only_of_eq (congrArg DB.transactionItems happ)⟩
      · have happ : (apiCreateTransaction db inp now commitOk).1 = db := by
          unfold apiCreateTransaction
          rw [if_neg hv]
        exact ⟨append_only_of_eq (congrArg DB.transactions happ),
               append_only_of_eq (congrArg DB.transactionItems happ)⟩
  | getTransactionsByDateRangeOp s e =>
      exact ⟨append_only_of_eq rfl, append_only_of_eq rfl⟩
  | getTransactionsByCashierOp id =>
      exact ⟨append_only_of_eq rfl, append_only_of_eq rfl⟩
  | getDailySalesReportOp d => exact ⟨append_only_of_eq rfl, append_only_of_eq rfl⟩

end SehatiCafe
